import Mathlib

/-!
Verification of the aurelia-studio audio core against its specification.

The source is TypeScript running on IEEE-754 doubles; sample values and
gains are modelled as exact rationals, byte stores as natural numbers,
and JavaScript's `DataView.setInt16` truncation toward zero as `jsTrunc`.
-/

/-- The multi-channel sample container (`AudioBuffer` in the source):
`channels` holds one list of float samples per channel, `sampleRate` the
rate in Hz, and `length` the frame count per channel. -/
structure AudioBuffer where
  channels : List (List ℚ)
  sampleRate : ℕ
  length : ℕ
deriving DecidableEq, Repr

/-- `audioBuffer.numberOfChannels` in the source. -/
def numCh (b : AudioBuffer) : ℕ := b.channels.length

/-- `audioBuffer.getChannelData(ch)[i]` (0 when out of bounds). -/
def getSample (b : AudioBuffer) (ch i : ℕ) : ℚ :=
  (((b.channels[ch]?).getD [])[i]?).getD 0

/-- Every channel carries exactly `length` samples (the AudioBuffer invariant). -/
def WellFormed (b : AudioBuffer) : Prop :=
  ∀ ch ∈ b.channels, ch.length = b.length

/-- All samples lie in [-1, 1] (a "valid buffer" in the spec's data model). -/
def ValidSamples (b : AudioBuffer) : Prop :=
  ∀ ch ∈ b.channels, ∀ s ∈ ch, -1 ≤ s ∧ s ≤ 1

instance : DecidablePred WellFormed := fun b => by
  unfold WellFormed; infer_instance

instance : DecidablePred ValidSamples := fun b => by
  unfold ValidSamples; infer_instance

/-- JavaScript number-to-integer conversion (`ToIntegerOrInfinity`) as used by
`DataView.setInt16`: truncation toward zero. -/
def jsTrunc (q : ℚ) : ℤ := if q < 0 then ⌈q⌉ else ⌊q⌋

/-- `Math.max(-1, Math.min(1, sample))` from `audioBufferToWav`. -/
def clip (s : ℚ) : ℚ := max (-1) (min 1 s)

/-- The 16-bit value computed by `audioBufferToWav` for one sample:
`const int16 = sample < 0 ? sample * 0x8000 : sample * 0x7FFF` applied to the
clipped sample, then truncated by `setInt16`. -/
def sampleInt16 (s : ℚ) : ℤ :=
  jsTrunc (if clip s < 0 then clip s * 32768 else clip s * 32767)

/-- Little-endian bytes stored by `DataView.setUint16(off, v, true)`. -/
def u16le (v : ℕ) : List ℕ := [v % 256, v / 256 % 256]

/-- Little-endian bytes stored by `DataView.setUint32(off, v, true)`. -/
def u32le (v : ℕ) : List ℕ :=
  [v % 256, v / 256 % 256, v / 65536 % 256, v / 16777216 % 256]

/-- Little-endian bytes stored by `DataView.setInt16(off, i, true)`:
the low 16 bits of the two's complement representation. -/
def i16le (i : ℤ) : List ℕ := u16le (i % 65536).toNat

/-- `writeString` from the source: one byte per character code. -/
def strBytes (s : String) : List ℕ := s.data.map (fun c => c.toNat)

/-- `const length = audioBuffer.length * numOfChannels * 2` in `audioBufferToWav`. -/
def wavDataLen (b : AudioBuffer) : ℕ := b.length * numCh b * 2

/-- The 44-byte WAV header written by `audioBufferToWav`, field by field in
source order: RIFF tag, riff chunk length `36 + length`, WAVE and fmt tags,
fmt chunk length 16, format tag 1, channel count, sample rate, byte rate
`sampleRate * 4`, block align `channels * 2`, bits per sample 16, data tag,
data chunk length. -/
def wavHeader (b : AudioBuffer) : List ℕ :=
  strBytes ("RIFF") ++ u32le (36 + wavDataLen b) ++
  strBytes ("WAVE") ++ strBytes ("fmt ") ++ u32le 16 ++ u16le 1 ++
  u16le (numCh b) ++ u32le b.sampleRate ++ u32le (b.sampleRate * 4) ++
  u16le (numCh b * 2) ++ u16le 16 ++ strBytes ("data") ++ u32le (wavDataLen b)

/-- Bytes of one interleaved sample: `view.setInt16(pos, int16, true)`. -/
def sampleBytes (b : AudioBuffer) (ch i : ℕ) : List ℕ :=
  i16le (sampleInt16 (getSample b ch i))

/-- Bytes of one frame: the inner `for (ch …)` loop of `audioBufferToWav`. -/
def frameBytes (b : AudioBuffer) (i : ℕ) : List ℕ :=
  ((List.range (numCh b)).map (fun ch => sampleBytes b ch i)).flatten

/-- The PCM data section: the outer `for (i …)` loop of `audioBufferToWav`. -/
def pcmBytes (b : AudioBuffer) : List ℕ :=
  ((List.range b.length).map (fun i => frameBytes b i)).flatten

/-- The full byte stream produced by `audioBufferToWav`. -/
def wavBytes (b : AudioBuffer) : List ℕ := wavHeader b ++ pcmBytes b

/-- Byte at an offset of an encoded stream (0 out of bounds). -/
def byteAt (bs : List ℕ) (k : ℕ) : ℕ := (bs[k]?).getD 0

/-- Little-endian 16-bit read. -/
def readU16le (bs : List ℕ) (k : ℕ) : ℕ := byteAt bs k + 256 * byteAt bs (k + 1)

/-- Little-endian 32-bit read. -/
def readU32le (bs : List ℕ) (k : ℕ) : ℕ :=
  byteAt bs k + 256 * byteAt bs (k + 1) + 65536 * byteAt bs (k + 2) +
  16777216 * byteAt bs (k + 3)

-- Sanity: header shape as an explicit byte list.
theorem wavHeader_eq (b : AudioBuffer) : wavHeader b =
    [82, 73, 70, 70,
     (36 + wavDataLen b) % 256, (36 + wavDataLen b) / 256 % 256,
     (36 + wavDataLen b) / 65536 % 256, (36 + wavDataLen b) / 16777216 % 256,
     87, 65, 86, 69, 102, 109, 116, 32, 16, 0, 0, 0, 1, 0,
     numCh b % 256, numCh b / 256 % 256,
     b.sampleRate % 256, b.sampleRate / 256 % 256,
     b.sampleRate / 65536 % 256, b.sampleRate / 16777216 % 256,
     b.sampleRate * 4 % 256, b.sampleRate * 4 / 256 % 256,
     b.sampleRate * 4 / 65536 % 256, b.sampleRate * 4 / 16777216 % 256,
     numCh b * 2 % 256, numCh b * 2 / 256 % 256, 16, 0,
     100, 97, 116, 97,
     wavDataLen b % 256, wavDataLen b / 256 % 256,
     wavDataLen b / 65536 % 256, wavDataLen b / 16777216 % 256] := rfl

theorem wavHeader_length (b : AudioBuffer) : (wavHeader b).length = 44 := by
  rw [wavHeader_eq]; rfl

-- Length of a flattened range-map whose chunks all have length `L`.
theorem flatten_map_range_length (f : ℕ → List ℕ) (L : ℕ) :
    ∀ n, (∀ i, i < n → (f i).length = L) →
    (((List.range n).map f).flatten).length = n * L := by
  intro n
  induction n with
  | zero => intro _; simp
  | succ m ih =>
    intro h
    rw [List.range_succ, List.map_append, List.flatten_append]
    simp only [List.length_append, List.map_cons, List.map_nil,
      List.flatten_cons, List.flatten_nil, List.append_nil]
    rw [ih (fun i hi => h i (Nat.lt_succ_of_lt hi)), h m (Nat.lt_succ_self m),
      Nat.succ_mul]

-- Element of a flattened range-map whose chunks all have length `L`.
theorem flatten_map_range_getElem? (f : ℕ → List ℕ) (L : ℕ) :
    ∀ n k r, (∀ i, i < n → (f i).length = L) → k < n → r < L →
    (((List.range n).map f).flatten)[k * L + r]? = (f k)[r]? := by
  intro n
  induction n with
  | zero => intro k r _ hk _; exact absurd hk (Nat.not_lt_zero k)
  | succ m ih =>
    intro k r hL hk hr
    rw [List.range_succ, List.map_append, List.flatten_append]
    by_cases hkm : k < m
    · have hlen : (((List.range m).map f).flatten).length = m * L :=
        flatten_map_range_length f L m (fun i hi => hL i (Nat.lt_succ_of_lt hi))
      have hidx : k * L + r < (((List.range m).map f).flatten).length := by
        rw [hlen]
        calc k * L + r < k * L + L := Nat.add_lt_add_left hr _
        _ = (k + 1) * L := (Nat.succ_mul k L).symm
        _ ≤ m * L := Nat.mul_le_mul_right L hkm
      rw [List.getElem?_append_left hidx]
      exact ih k r (fun i hi => hL i (Nat.lt_succ_of_lt hi)) hkm hr
    · have hkm' : k = m := by omega
      subst hkm'
      have hlen : (((List.range k).map f).flatten).length = k * L :=
        flatten_map_range_length f L k (fun i hi => hL i (Nat.lt_succ_of_lt hi))
      rw [List.getElem?_append_right (by rw [hlen]; exact Nat.le_add_right _ _)]
      simp [hlen]

theorem i16le_length (i : ℤ) : (i16le i).length = 2 := rfl

theorem frameBytes_length (b : AudioBuffer) (i : ℕ) :
    (frameBytes b i).length = numCh b * 2 :=
  flatten_map_range_length _ 2 (numCh b) (fun _ _ => i16le_length _)

theorem pcmBytes_length (b : AudioBuffer) :
    (pcmBytes b).length = b.length * (numCh b * 2) :=
  flatten_map_range_length _ (numCh b * 2) b.length
    (fun i _ => frameBytes_length b i)

theorem wavBytes_length (b : AudioBuffer) :
    (wavBytes b).length = 44 + wavDataLen b := by
  rw [wavBytes, List.length_append, wavHeader_length, pcmBytes_length,
    wavDataLen, Nat.mul_assoc]

-- Any byte of the data section, addressed from offset 44.
theorem wavBytes_data_getElem? (b : AudioBuffer) (m : ℕ) :
    (wavBytes b)[44 + m]? = (pcmBytes b)[m]? := by
  rw [wavBytes, List.getElem?_append_right (by rw [wavHeader_length]; omega),
    wavHeader_length]
  congr 1
  omega

-- The two bytes of sample (frame `i`, channel `ch`) of the PCM data section.
theorem wavBytes_sample_getElem? (b : AudioBuffer) (ch i q : ℕ)
    (hch : ch < numCh b) (hi : i < b.length) (hq : q < 2) :
    (wavBytes b)[44 + 2 * (i * numCh b + ch) + q]? =
      (i16le (sampleInt16 (getSample b ch i)))[q]? := by
  have hidx : 44 + 2 * (i * numCh b + ch) + q =
      44 + (i * (numCh b * 2) + (ch * 2 + q)) := by ring
  rw [hidx, wavBytes_data_getElem?, pcmBytes,
    flatten_map_range_getElem? _ (numCh b * 2) b.length i (ch * 2 + q)
      (fun j _ => frameBytes_length b j) hi (by omega),
    frameBytes,
    flatten_map_range_getElem? (fun ch => sampleBytes b ch i) 2 (numCh b) ch q
      (fun _ _ => i16le_length _) hch hq]
  rfl

/-- Modelled from the spec: two's complement interpretation of a stored
16-bit value, the inverse of what `setInt16` stores. The repository has no
decoder of its own (it delegates decoding to the host's `decodeAudioData`),
so `decode` is modelled from the spec's codec interface. -/
def toInt16 (u : ℕ) : ℤ := if u < 32768 then (u : ℤ) else (u : ℤ) - 65536

/-- Modelled from the spec: map a decoded 16-bit integer back to a float
sample, inverting the encoder's asymmetric scaling (negative scale factor
0x8000, positive scale factor 0x7FFF), which the spec says "must be
preserved exactly for bit-compatibility". -/
def decSample (i : ℤ) : ℚ := if i < 0 then (i : ℚ) / 32768 else (i : ℚ) / 32767

/-- Modelled from the spec: `decode(bytes) -> SampleBuffer`. The repository
ships no decoder (decoding is delegated to the host runtime), so this is
built from the spec's words: it "fails with `MalformedContainer` if the
header tags or declared chunk sizes are inconsistent with the byte length"
(failure is `none`), and otherwise de-interleaves the little-endian 16-bit
samples described by the header. -/
def decodeWav (bs : List ℕ) : Option AudioBuffer :=
  if bs.length < 44 then none
  else if ¬ (bs.take 4 = strBytes ("RIFF") ∧
             (bs.drop 8).take 4 = strBytes ("WAVE") ∧
             (bs.drop 12).take 4 = strBytes ("fmt ") ∧
             (bs.drop 36).take 4 = strBytes ("data") ∧
             readU32le bs 4 + 8 = bs.length ∧
             readU32le bs 40 + 44 = bs.length) then none
  else if readU16le bs 22 = 0 then none
  else some
    { channels := (List.range (readU16le bs 22)).map (fun ch =>
        (List.range ((bs.length - 44) / (2 * readU16le bs 22))).map (fun i =>
          decSample (toInt16 (readU16le bs (44 + 2 * (i * readU16le bs 22 + ch)))))),
      sampleRate := readU32le bs 24,
      length := (bs.length - 44) / (2 * readU16le bs 22) }

/-- Claim C1: the PCM encoder clips each sample to [-1,1], scales a negative
clipped sample by 0x8000 and a nonnegative one by 0x7FFF, truncates, and
writes the 16-bit value little-endian, channel-interleaved, starting at byte
offset 44: the byte pair for frame `i`, channel `ch` sits at offset
`44 + 2*(i*numCh + ch)`, low byte first. -/
theorem c1_pcm_encoding (b : AudioBuffer) (ch i : ℕ)
    (hch : ch < numCh b) (hi : i < b.length) :
    (wavBytes b)[44 + 2 * (i * numCh b + ch)]? =
      some ((jsTrunc (if clip (getSample b ch i) < 0
        then clip (getSample b ch i) * 32768
        else clip (getSample b ch i) * 32767) % 65536).toNat % 256) ∧
    (wavBytes b)[44 + 2 * (i * numCh b + ch) + 1]? =
      some ((jsTrunc (if clip (getSample b ch i) < 0
        then clip (getSample b ch i) * 32768
        else clip (getSample b ch i) * 32767) % 65536).toNat / 256 % 256) := by
  have h0 := wavBytes_sample_getElem? b ch i 0 hch hi (by omega)
  have h1 := wavBytes_sample_getElem? b ch i 1 hch hi (by omega)
  rw [Nat.add_zero] at h0
  rw [h0, h1]
  exact ⟨rfl, rfl⟩

/-- Witness for C1 at a concrete one-channel, one-frame buffer. -/
theorem c1_pcm_encoding_witness :
    (wavBytes ⟨[[1/2]], 8000, 1⟩)[44 + 2 * (0 * numCh ⟨[[1/2]], 8000, 1⟩ + 0)]? =
      some ((jsTrunc (if clip (getSample ⟨[[1/2]], 8000, 1⟩ 0 0) < 0
        then clip (getSample ⟨[[1/2]], 8000, 1⟩ 0 0) * 32768
        else clip (getSample ⟨[[1/2]], 8000, 1⟩ 0 0) * 32767) % 65536).toNat % 256) ∧
    (wavBytes ⟨[[1/2]], 8000, 1⟩)[44 + 2 * (0 * numCh ⟨[[1/2]], 8000, 1⟩ + 0) + 1]? =
      some ((jsTrunc (if clip (getSample ⟨[[1/2]], 8000, 1⟩ 0 0) < 0
        then clip (getSample ⟨[[1/2]], 8000, 1⟩ 0 0) * 32768
        else clip (getSample ⟨[[1/2]], 8000, 1⟩ 0 0) * 32767) % 65536).toNat / 256 % 256) :=
  c1_pcm_encoding ⟨[[1/2]], 8000, 1⟩ 0 0 (by decide) (by decide)

theorem clip_eq_self (s : ℚ) (h1 : -1 ≤ s) (h2 : s ≤ 1) : clip s = s := by
  rw [clip, min_eq_right h2, max_eq_right h1]

-- The encoder's 16-bit value stays inside the signed 16-bit range.
theorem sampleInt16_range (s : ℚ) (h1 : -1 ≤ s) (h2 : s ≤ 1) :
    -32768 ≤ sampleInt16 s ∧ sampleInt16 s ≤ 32767 := by
  rw [sampleInt16, clip_eq_self s h1 h2, jsTrunc]
  by_cases hs : s < 0
  · rw [if_pos hs, if_pos (mul_neg_of_neg_of_pos hs (by norm_num))]
    constructor
    · exact Int.le_ceil_iff.mpr (by push_cast; nlinarith)
    · have h : ⌈s * 32768⌉ ≤ 0 := Int.ceil_le.mpr (by push_cast; nlinarith)
      omega
  · rw [if_neg hs, if_neg (not_lt.mpr (mul_nonneg (not_lt.mp hs) (by norm_num)))]
    constructor
    · have h : 0 ≤ ⌊s * 32767⌋ :=
        Int.floor_nonneg.mpr (mul_nonneg (not_lt.mp hs) (by norm_num))
      omega
    · exact Int.floor_le_iff.mpr (by push_cast; nlinarith)

-- One sample surviving encode + decode, within one positive quantization step.
theorem roundtrip_sample (s : ℚ) (h1 : -1 ≤ s) (h2 : s ≤ 1) :
    |s - decSample (sampleInt16 s)| ≤ 1 / 32767 := by
  rw [sampleInt16, clip_eq_self s h1 h2]
  by_cases hs : s < 0
  · rw [if_pos hs, jsTrunc, if_pos (mul_neg_of_neg_of_pos hs (by norm_num)),
      decSample]
    by_cases hneg : ⌈s * 32768⌉ < 0
    · rw [if_pos hneg, abs_le]
      have hc1 : s * 32768 ≤ ((⌈s * 32768⌉ : ℤ) : ℚ) := Int.le_ceil _
      have hc2 : ((⌈s * 32768⌉ : ℤ) : ℚ) < s * 32768 + 1 := Int.ceil_lt_add_one _
      constructor <;> linarith
    · rw [if_neg hneg]
      have hi0 : ⌈s * 32768⌉ = 0 :=
        le_antisymm (Int.ceil_le.mpr (by push_cast; nlinarith)) (not_lt.mp hneg)
      have hc2 := Int.ceil_lt_add_one (s * 32768)
      rw [hi0] at hc2
      push_cast at hc2
      rw [hi0, abs_le]
      push_cast
      constructor <;> linarith
  · rw [if_neg hs, jsTrunc,
      if_neg (not_lt.mpr (mul_nonneg (not_lt.mp hs) (by norm_num))), decSample,
      if_neg (not_lt.mpr (Int.floor_nonneg.mpr
        (mul_nonneg (not_lt.mp hs) (by norm_num))))]
    have hf1 : ((⌊s * 32767⌋ : ℤ) : ℚ) ≤ s * 32767 := Int.floor_le _
    have hf2 : s * 32767 < ((⌊s * 32767⌋ : ℤ) : ℚ) + 1 := Int.lt_floor_add_one _
    rw [abs_le]
    constructor <;> linarith

-- Reading back the two bytes the encoder wrote for one sample.
theorem readU16le_wavBytes (b : AudioBuffer) (ch i : ℕ)
    (hch : ch < numCh b) (hi : i < b.length) :
    readU16le (wavBytes b) (44 + 2 * (i * numCh b + ch)) =
      ((sampleInt16 (getSample b ch i)) % 65536).toNat := by
  have h0 := wavBytes_sample_getElem? b ch i 0 hch hi (by omega)
  have h1 := wavBytes_sample_getElem? b ch i 1 hch hi (by omega)
  rw [Nat.add_zero] at h0
  rw [readU16le, byteAt, byteAt, h0, h1]
  show ((sampleInt16 (getSample b ch i)) % 65536).toNat % 256 +
    256 * (((sampleInt16 (getSample b ch i)) % 65536).toNat / 256 % 256) = _
  have hlt : ((sampleInt16 (getSample b ch i)) % 65536).toNat < 65536 := by omega
  omega

-- Two's complement 16-bit store/load round trip.
theorem toInt16_roundtrip (z : ℤ) (hlo : -32768 ≤ z) (hhi : z ≤ 32767) :
    toInt16 ((z % 65536).toNat) = z := by
  rw [toInt16]
  split_ifs with h <;> omega

-- A sample of a well-formed valid buffer is in [-1, 1].
theorem getSample_bounds (b : AudioBuffer) (hwf : WellFormed b)
    (hval : ValidSamples b) (ch i : ℕ) (hch : ch < numCh b)
    (hi : i < b.length) : -1 ≤ getSample b ch i ∧ getSample b ch i ≤ 1 := by
  have hch' : b.channels[ch]? = some (b.channels.get ⟨ch, hch⟩) :=
    List.getElem?_eq_getElem hch
  have hmem : b.channels.get ⟨ch, hch⟩ ∈ b.channels := List.get_mem _ _ _
  have hlen : (b.channels.get ⟨ch, hch⟩).length = b.length :=
    hwf _ hmem
  have hi' : i < (b.channels.get ⟨ch, hch⟩).length := hlen ▸ hi
  have hielem : (b.channels.get ⟨ch, hch⟩)[i]? =
      some ((b.channels.get ⟨ch, hch⟩).get ⟨i, hi'⟩) :=
    List.getElem?_eq_getElem hi'
  have hs : getSample b ch i = (b.channels.get ⟨ch, hch⟩).get ⟨i, hi'⟩ := by
    rw [getSample, hch', Option.getD_some, hielem, Option.getD_some]
  rw [hs]
  exact hval _ hmem _ (List.get_mem _ _ _)

theorem wavHeaderByte (b : AudioBuffer) (k : ℕ) (hk : k < 44) :
    byteAt (wavBytes b) k = ((wavHeader b)[k]?).getD 0 := by
  rw [byteAt, wavBytes,
    List.getElem?_append_left (by rw [wavHeader_length]; exact hk)]

theorem wav_tag_riff (b : AudioBuffer) :
    (wavBytes b).take 4 = strBytes ("RIFF") := by
  rw [wavBytes, wavHeader_eq]; rfl

theorem wav_tag_wave (b : AudioBuffer) :
    ((wavBytes b).drop 8).take 4 = strBytes ("WAVE") := by
  rw [wavBytes, wavHeader_eq]; rfl

theorem wav_tag_fmt (b : AudioBuffer) :
    ((wavBytes b).drop 12).take 4 = strBytes ("fmt ") := by
  rw [wavBytes, wavHeader_eq]; rfl

theorem wav_tag_data (b : AudioBuffer) :
    ((wavBytes b).drop 36).take 4 = strBytes ("data") := by
  rw [wavBytes, wavHeader_eq]; rfl

theorem wav_riffsize (b : AudioBuffer) (h : 36 + wavDataLen b < 4294967296) :
    readU32le (wavBytes b) 4 = 36 + wavDataLen b := by
  rw [readU32le, wavHeaderByte b 4 (by norm_num), wavHeaderByte b 5 (by norm_num),
    wavHeaderByte b 6 (by norm_num), wavHeaderByte b 7 (by norm_num)]
  have e0 : ((wavHeader b)[4]?).getD 0 = (36 + wavDataLen b) % 256 := by rw [wavHeader_eq]; rfl
  have e1 : ((wavHeader b)[5]?).getD 0 = (36 + wavDataLen b) / 256 % 256 := by rw [wavHeader_eq]; rfl
  have e2 : ((wavHeader b)[6]?).getD 0 = (36 + wavDataLen b) / 65536 % 256 := by rw [wavHeader_eq]; rfl
  have e3 : ((wavHeader b)[7]?).getD 0 = (36 + wavDataLen b) / 16777216 % 256 := by rw [wavHeader_eq]; rfl
  rw [e0, e1, e2, e3]
  omega

theorem wav_channels (b : AudioBuffer) (h : numCh b < 65536) :
    readU16le (wavBytes b) 22 = numCh b := by
  rw [readU16le, wavHeaderByte b 22 (by norm_num), wavHeaderByte b 23 (by norm_num)]
  have e0 : ((wavHeader b)[22]?).getD 0 = (numCh b) % 256 := by rw [wavHeader_eq]; rfl
  have e1 : ((wavHeader b)[23]?).getD 0 = (numCh b) / 256 % 256 := by rw [wavHeader_eq]; rfl
  rw [e0, e1]
  omega

theorem wav_samplerate (b : AudioBuffer) (h : b.sampleRate < 4294967296) :
    readU32le (wavBytes b) 24 = b.sampleRate := by
  rw [readU32le, wavHeaderByte b 24 (by norm_num), wavHeaderByte b 25 (by norm_num),
    wavHeaderByte b 26 (by norm_num), wavHeaderByte b 27 (by norm_num)]
  have e0 : ((wavHeader b)[24]?).getD 0 = (b.sampleRate) % 256 := by rw [wavHeader_eq]; rfl
  have e1 : ((wavHeader b)[25]?).getD 0 = (b.sampleRate) / 256 % 256 := by rw [wavHeader_eq]; rfl
  have e2 : ((wavHeader b)[26]?).getD 0 = (b.sampleRate) / 65536 % 256 := by rw [wavHeader_eq]; rfl
  have e3 : ((wavHeader b)[27]?).getD 0 = (b.sampleRate) / 16777216 % 256 := by rw [wavHeader_eq]; rfl
  rw [e0, e1, e2, e3]
  omega

theorem wav_byterate (b : AudioBuffer) (h : b.sampleRate * 4 < 4294967296) :
    readU32le (wavBytes b) 28 = b.sampleRate * 4 := by
  rw [readU32le, wavHeaderByte b 28 (by norm_num), wavHeaderByte b 29 (by norm_num),
    wavHeaderByte b 30 (by norm_num), wavHeaderByte b 31 (by norm_num)]
  have e0 : ((wavHeader b)[28]?).getD 0 = (b.sampleRate * 4) % 256 := by rw [wavHeader_eq]; rfl
  have e1 : ((wavHeader b)[29]?).getD 0 = (b.sampleRate * 4) / 256 % 256 := by rw [wavHeader_eq]; rfl
  have e2 : ((wavHeader b)[30]?).getD 0 = (b.sampleRate * 4) / 65536 % 256 := by rw [wavHeader_eq]; rfl
  have e3 : ((wavHeader b)[31]?).getD 0 = (b.sampleRate * 4) / 16777216 % 256 := by rw [wavHeader_eq]; rfl
  rw [e0, e1, e2, e3]
  omega

theorem wav_blockalign (b : AudioBuffer) (h : numCh b * 2 < 65536) :
    readU16le (wavBytes b) 32 = numCh b * 2 := by
  rw [readU16le, wavHeaderByte b 32 (by norm_num), wavHeaderByte b 33 (by norm_num)]
  have e0 : ((wavHeader b)[32]?).getD 0 = (numCh b * 2) % 256 := by rw [wavHeader_eq]; rfl
  have e1 : ((wavHeader b)[33]?).getD 0 = (numCh b * 2) / 256 % 256 := by rw [wavHeader_eq]; rfl
  rw [e0, e1]
  omega

theorem wav_datasize (b : AudioBuffer) (h : wavDataLen b < 4294967296) :
    readU32le (wavBytes b) 40 = wavDataLen b := by
  rw [readU32le, wavHeaderByte b 40 (by norm_num), wavHeaderByte b 41 (by norm_num),
    wavHeaderByte b 42 (by norm_num), wavHeaderByte b 43 (by norm_num)]
  have e0 : ((wavHeader b)[40]?).getD 0 = (wavDataLen b) % 256 := by rw [wavHeader_eq]; rfl
  have e1 : ((wavHeader b)[41]?).getD 0 = (wavDataLen b) / 256 % 256 := by rw [wavHeader_eq]; rfl
  have e2 : ((wavHeader b)[42]?).getD 0 = (wavDataLen b) / 65536 % 256 := by rw [wavHeader_eq]; rfl
  have e3 : ((wavHeader b)[43]?).getD 0 = (wavDataLen b) / 16777216 % 256 := by rw [wavHeader_eq]; rfl
  rw [e0, e1, e2, e3]
  omega

-- Decoding an encoded stream succeeds and reproduces shape and samples.
theorem decodeWav_wavBytes (b : AudioBuffer)
    (hnc : 0 < numCh b) (hnc16 : numCh b < 65536)
    (hsr : b.sampleRate < 4294967296)
    (hdl : 36 + wavDataLen b < 4294967296) :
    decodeWav (wavBytes b) = some
      { channels := (List.range (numCh b)).map (fun ch =>
          (List.range b.length).map (fun i =>
            decSample (toInt16 (readU16le (wavBytes b)
              (44 + 2 * (i * numCh b + ch)))))),
        sampleRate := b.sampleRate,
        length := b.length } := by
  have hlen : (wavBytes b).length = 44 + wavDataLen b := wavBytes_length b
  have h22 : readU16le (wavBytes b) 22 = numCh b := wav_channels b hnc16
  have h24 : readU32le (wavBytes b) 24 = b.sampleRate := wav_samplerate b hsr
  have h4 : readU32le (wavBytes b) 4 = 36 + wavDataLen b := wav_riffsize b hdl
  have h40 : readU32le (wavBytes b) 40 = wavDataLen b :=
    wav_datasize b (by omega)
  have hframes : ((wavBytes b).length - 44) / (2 * readU16le (wavBytes b) 22) =
      b.length := by
    rw [hlen, h22, Nat.add_sub_cancel_left, wavDataLen,
      show b.length * numCh b * 2 = b.length * (2 * numCh b) by ring]
    exact Nat.mul_div_cancel _ (by omega)
  rw [decodeWav, if_neg (by omega), if_neg (not_not_intro
    ⟨wav_tag_riff b, wav_tag_wave b, wav_tag_fmt b, wav_tag_data b,
     by omega, by omega⟩), if_neg (by omega), hframes, h22, h24]

/-- Claim C2 (amended): encoding a valid buffer and decoding the bytes
reproduces the buffer's shape, and every decoded sample is within 1/32767
of the original (the claim's stated 1/32768 bound fails, see the
counterexample; truncation of a positive sample scaled by 0x7FFF can lose
just over one 1/32768 step). -/
theorem c2_roundtrip_amended (b : AudioBuffer)
    (hwf : WellFormed b) (hval : ValidSamples b)
    (hnc : 0 < numCh b) (hnc16 : numCh b < 65536)
    (hsr : b.sampleRate < 4294967296)
    (hdl : 36 + wavDataLen b < 4294967296) :
    ∃ d : AudioBuffer,
      decodeWav (wavBytes b) = some d ∧
      d.sampleRate = b.sampleRate ∧
      numCh d = numCh b ∧
      d.length = b.length ∧
      ∀ ch i, ch < numCh b → i < b.length →
        |getSample b ch i - getSample d ch i| ≤ 1 / 32767 := by
  refine ⟨_, decodeWav_wavBytes b hnc hnc16 hsr hdl, rfl, ?_, rfl, ?_⟩
  · show (((List.range (numCh b)).map _).length) = numCh b
    rw [List.length_map, List.length_range]
  · intro ch i hch hi
    have hdch : getSample
        { channels := (List.range (numCh b)).map (fun ch =>
            (List.range b.length).map (fun i =>
              decSample (toInt16 (readU16le (wavBytes b)
                (44 + 2 * (i * numCh b + ch)))))),
          sampleRate := b.sampleRate, length := b.length } ch i =
        decSample (toInt16 (readU16le (wavBytes b)
          (44 + 2 * (i * numCh b + ch)))) := by
      rw [getSample]
      show ((((List.range (numCh b)).map _)[ch]?).getD [])[i]?.getD 0 = _
      rw [List.getElem?_map, List.getElem?_range hch, Option.map_some',
        Option.getD_some, List.getElem?_map, List.getElem?_range hi,
        Option.map_some', Option.getD_some]
    rw [hdch, readU16le_wavBytes b ch i hch hi]
    have hb := getSample_bounds b hwf hval ch i hch hi
    have hr := sampleInt16_range (getSample b ch i) hb.1 hb.2
    rw [toInt16_roundtrip _ hr.1 hr.2]
    exact roundtrip_sample _ hb.1 hb.2

/-- Counterexample to Claim C2 as stated: for the valid one-sample buffer
holding 32769/2^24 (a value exactly representable even in 32-bit floats),
the decoded sample differs from the original by more than 1/32768, because
`setInt16` truncates 32769*32767/2^24 = 64 - 2^-24 down to 63. -/
theorem c2_roundtrip_counterexample :
    decodeWav (wavBytes ⟨[[32769/16777216]], 8000, 1⟩) =
      some ⟨[[63/32767]], 8000, 1⟩ ∧
    1 / 32768 < |(32769 : ℚ)/16777216 - 63/32767| := by
  have hs : getSample ⟨[[32769/16777216]], 8000, 1⟩ 0 0 = 32769/16777216 := rfl
  have hint : sampleInt16 (getSample ⟨[[32769/16777216]], 8000, 1⟩ 0 0) = 63 := by
    rw [hs, sampleInt16, clip_eq_self _ (by norm_num) (by norm_num), jsTrunc,
      if_neg (by norm_num), if_neg (by norm_num)]
    rw [show (32769 / 16777216 : ℚ) * 32767 = 1073741823 / 16777216 by norm_num,
      Int.floor_eq_iff]
    constructor <;> norm_num
  constructor
  · rw [decodeWav_wavBytes ⟨[[32769/16777216]], 8000, 1⟩ (by decide) (by decide)
      (by decide) (by decide)]
    have hread := readU16le_wavBytes ⟨[[32769/16777216]], 8000, 1⟩ 0 0
      (by decide) (by decide)
    rw [hint] at hread
    congr 1
    show AudioBuffer.mk _ _ _ = _
    congr 1
    show [[decSample (toInt16 (readU16le
      (wavBytes ⟨[[32769/16777216]], 8000, 1⟩) (44 + 2 * (0 * 1 + 0))))]] = _
    rw [show numCh (⟨[[32769/16777216]], 8000, 1⟩ : AudioBuffer) = 1 from rfl]
      at hread
    rw [hread]
    norm_num [toInt16, decSample]
  · rw [abs_of_pos (by norm_num)]
    norm_num

/-- Witness for the amended C2 at a concrete one-channel, one-frame buffer. -/
theorem c2_roundtrip_amended_witness :
    ∃ d : AudioBuffer,
      decodeWav (wavBytes ⟨[[1/2]], 8000, 1⟩) = some d ∧
      d.sampleRate = (8000 : ℕ) ∧
      numCh d = numCh ⟨[[1/2]], 8000, 1⟩ ∧
      d.length = (1 : ℕ) ∧
      ∀ ch i, ch < numCh ⟨[[1/2]], 8000, 1⟩ → i < (1 : ℕ) →
        |getSample ⟨[[1/2]], 8000, 1⟩ ch i - getSample d ch i| ≤ 1 / 32767 :=
  c2_roundtrip_amended ⟨[[1/2]], 8000, 1⟩ (by decide)
    (by norm_num [ValidSamples]) (by decide) (by decide) (by decide) (by decide)

/-- Pass 1 of `applyNormalize`: running maximum of `Math.abs(data[i])` over
every sample of every channel, starting from 0. -/
def peakAmp (b : AudioBuffer) : ℚ :=
  b.channels.foldl (fun acc ch => ch.foldl (fun a s => max a |s|) acc) 0

/-- Pass 2 of `applyNormalize`:
`const gainFactor = peak > 0 ? targetPeak / peak : 1` with
`targetPeak = 0.7079` (-3 dB relative to full scale). -/
def gainFactor (b : AudioBuffer) : ℚ :=
  if 0 < peakAmp b then (7079 / 10000) / peakAmp b else 1

/-- `applyNormalize`: the gain node multiplies every sample of every channel
by the single scalar `gainFactor`. -/
def applyNormalize (b : AudioBuffer) : AudioBuffer :=
  { b with channels := b.channels.map (fun ch => ch.map (fun s => s * gainFactor b)) }

-- The inner peak fold commutes with scaling by a nonnegative factor.
theorem foldl_max_abs_scale (g : ℚ) (hg : 0 ≤ g) :
    ∀ (l : List ℚ) (a : ℚ),
    (l.map (fun s => s * g)).foldl (fun x s => max x |s|) (g * a) =
      g * l.foldl (fun x s => max x |s|) a := by
  intro l
  induction l with
  | nil => intro a; rfl
  | cons s t ih =>
    intro a
    simp only [List.map_cons, List.foldl_cons]
    rw [abs_mul, abs_of_nonneg hg, mul_comm |s| g, ← mul_max_of_nonneg _ _ hg,
      ih]

-- The outer peak fold commutes with scaling by a nonnegative factor.
theorem peak_fold_scale (g : ℚ) (hg : 0 ≤ g) :
    ∀ (cs : List (List ℚ)) (a : ℚ),
    (cs.map (fun ch => ch.map (fun s => s * g))).foldl
      (fun acc ch => ch.foldl (fun x s => max x |s|) acc) (g * a) =
      g * cs.foldl (fun acc ch => ch.foldl (fun x s => max x |s|) acc) a := by
  intro cs
  induction cs with
  | nil => intro a; rfl
  | cons c t ih =>
    intro a
    simp only [List.map_cons, List.foldl_cons]
    rw [foldl_max_abs_scale g hg c a, ih]

theorem peakAmp_scale (g : ℚ) (hg : 0 ≤ g) (b : AudioBuffer) :
    peakAmp (AudioBuffer.mk
      (b.channels.map (fun ch => ch.map (fun s => s * g)))
      b.sampleRate b.length) = g * peakAmp b := by
  rw [peakAmp, peakAmp]
  have h := peak_fold_scale g hg b.channels 0
  rw [mul_zero] at h
  exact h

theorem gainFactor_nonneg (b : AudioBuffer) : 0 ≤ gainFactor b := by
  rw [gainFactor]
  split_ifs with h
  · positivity
  · norm_num

/-- Claim C3: `applyNormalize` multiplies every sample of every channel by
the single scalar gain `target/peak` (target 0.7079 ≈ -3 dBFS); an all-zero
buffer (peak 0) gets gain 1 and is returned unchanged; any buffer with
positive peak — in particular peak 0.5 — ends with its new peak exactly at
the target. -/
theorem c3_normalize (b : AudioBuffer) :
    (∀ ch i, getSample (applyNormalize b) ch i =
       getSample b ch i * gainFactor b) ∧
    (peakAmp b = 0 → applyNormalize b = b) ∧
    (0 < peakAmp b → peakAmp (applyNormalize b) = 7079 / 10000) ∧
    (peakAmp b = 1 / 2 → peakAmp (applyNormalize b) = 7079 / 10000) := by
  have hmap : ∀ (hp : 0 < peakAmp b),
      peakAmp (applyNormalize b) = 7079 / 10000 := by
    intro hp
    have h := peakAmp_scale (gainFactor b) (gainFactor_nonneg b) b
    rw [applyNormalize]
    show peakAmp (AudioBuffer.mk _ _ _) = _
    rw [h, gainFactor, if_pos hp, div_mul_cancel₀ _ (ne_of_gt hp)]
  have getD_map_mul : ∀ (o : Option ℚ) (g : ℚ),
      (o.map (fun s => s * g)).getD 0 = o.getD 0 * g := by
    intro o g
    cases o with
    | none => simp
    | some s => simp
  have getD_map_inner : ∀ (o : Option (List ℚ)) (fm : ℚ → ℚ) (i : ℕ),
      ((o.map (fun ch => ch.map fm)).getD [])[i]? = ((o.getD [])[i]?).map fm := by
    intro o fm i
    cases o with
    | none => rfl
    | some c =>
      rw [Option.map_some', Option.getD_some, Option.getD_some,
        List.getElem?_map]
  refine ⟨?_, ?_, hmap, fun h2 => hmap (by rw [h2]; norm_num)⟩
  · intro ch i
    rw [getSample, getSample, applyNormalize]
    show ((((b.channels.map _)[ch]?).getD [])[i]?).getD 0 = _
    rw [List.getElem?_map, getD_map_inner, getD_map_mul]
  · intro h0
    rw [applyNormalize, gainFactor, if_neg (by rw [h0]; norm_num)]
    show AudioBuffer.mk (b.channels.map _) b.sampleRate b.length = b
    have hch : ∀ ch : List ℚ, ch.map (fun s => s * 1) = ch := by
      intro ch
      simp
    simp only [hch]
    rw [List.map_id']

/-- Witness for C3 at a buffer with peak exactly 0.5. -/
theorem c3_normalize_witness :
    peakAmp (applyNormalize ⟨[[1/2, -1/4]], 44100, 2⟩) = 7079 / 10000 :=
  (c3_normalize ⟨[[1/2, -1/4]], 44100, 2⟩).2.2.2 (by
    show max (max 0 |(1 : ℚ)/2|) |(-1 : ℚ)/4| = 1/2
    rw [abs_of_nonneg (by norm_num), abs_of_nonpos (by norm_num)]
    norm_num)

/-- Biquad filter kinds used by the source (the `type` field of a
`BiquadFilterNode`). -/
inductive FilterKind where
  | lowshelf | highshelf | peaking | lowpass | highpass | bandpass
deriving DecidableEq, Repr

/-- A tagged stage descriptor: each constructor records the literal
parameters the source assigns to the corresponding node. Unset node
parameters keep their Web Audio defaults (Q = 1, gain = 0). -/
inductive StageSpec where
  | biquad (kind : FilterKind) (freq q gain : ℚ)
  | compressor (threshold knee ratio attack release : ℚ)
  | gain (value : ℚ)
deriving DecidableEq, Repr

/-- `ManualProcessingParams` from the source: every field optional. -/
structure ManualParams where
  bass : Option ℚ := none
  treble : Option ℚ := none
  compression : Option ℚ := none
  normalize : Option ℚ := none
  lowpass : Option ℚ := none
  highpass : Option ℚ := none
deriving DecidableEq, Repr

/-- The stage list built by `previewManualProcessing`, following the source's
conditionals in source order: a stage is appended only when its parameter is
defined and differs from the neutral value (`!== 0` for bass/treble/
compression, `> 0` for highpass/lowpass/normalize). -/
def manualChain (p : ManualParams) : List StageSpec :=
  (match p.bass with
   | none => []
   | some v => if v = 0 then [] else [.biquad .lowshelf 100 1 v]) ++
  (match p.treble with
   | none => []
   | some v => if v = 0 then [] else [.biquad .highshelf 3000 1 v]) ++
  (match p.highpass with
   | none => []
   | some v => if 0 < v then [.biquad .highpass v 1 0] else []) ++
  (match p.lowpass with
   | none => []
   | some v => if 0 < v then [.biquad .lowpass v 1 0] else []) ++
  (match p.compression with
   | none => []
   | some v => if v = 0 then []
               else [.compressor (-24) 30 (3 + |v|) (3/1000) (1/4)]) ++
  (match p.normalize with
   | none => []
   | some v => if 0 < v then [.gain (1 + v / 10)] else [])

/-- The offline render of a stage chain: each stage consumes the previous
stage's full output (`source → stage₁ → … → destination`); with no stages the
source feeds the destination directly. `applyStage` gives the semantics of
one stage; the composer claims below hold for every stage semantics. -/
def renderChain (applyStage : StageSpec → AudioBuffer → AudioBuffer)
    (chain : List StageSpec) (b : AudioBuffer) : AudioBuffer :=
  chain.foldl (fun acc st => applyStage st acc) b

/-- `previewManualProcessing`: build the chain from manual parameters, then
render. -/
def previewManualProcessing (applyStage : StageSpec → AudioBuffer → AudioBuffer)
    (b : AudioBuffer) (p : ManualParams) : AudioBuffer :=
  renderChain applyStage (manualChain p) b

/-- The ten preset names of the `presets` record in source order. -/
def presetNames : List String :=
  ["bass-boost", "studio-sound", "podcast-voice", "asmr", "noise-reduction",
   "radio-voice", "vinyl-effect", "phone-call", "normalize", "compression"]

/-- `processAudio(audioBuffer, preset?, manualParams?)`: if a truthy preset
string names a known preset, it is applied; otherwise, if manual parameters
are present, they are applied; otherwise the call throws
`"Invalid preset or parameters"`. `presetApp` gives the semantics of preset
application; the dispatch claims below hold for every such semantics. -/
def processAudio (presetApp : String → AudioBuffer → AudioBuffer)
    (applyStage : StageSpec → AudioBuffer → AudioBuffer)
    (b : AudioBuffer) (preset : Option String) (manual : Option ManualParams) :
    Except String AudioBuffer :=
  match preset with
  | some s =>
    if s ≠ "" ∧ s ∈ presetNames then Except.ok (presetApp s b)
    else
      match manual with
      | some m => Except.ok (previewManualProcessing applyStage b m)
      | none => Except.error ("Invalid preset or parameters")
  | none =>
    match manual with
    | some m => Except.ok (previewManualProcessing applyStage b m)
    | none => Except.error ("Invalid preset or parameters")

/-- Claim C4: a manual parameter set with every parameter at its neutral
value (absent or 0) appends no stage, and rendering returns the input buffer
bit-identically — for every stage semantics. -/
theorem c4_identity_chain (applyStage : StageSpec → AudioBuffer → AudioBuffer)
    (b : AudioBuffer) (p : ManualParams)
    (hb : p.bass = none ∨ p.bass = some 0)
    (ht : p.treble = none ∨ p.treble = some 0)
    (hc : p.compression = none ∨ p.compression = some 0)
    (hn : p.normalize = none ∨ p.normalize = some 0)
    (hl : p.lowpass = none ∨ p.lowpass = some 0)
    (hh : p.highpass = none ∨ p.highpass = some 0) :
    manualChain p = [] ∧ previewManualProcessing applyStage b p = b := by
  have hchain : manualChain p = [] := by
    rw [manualChain]
    rcases hb with h | h <;> rw [h] <;>
    rcases ht with h2 | h2 <;> rw [h2] <;>
    rcases hc with h3 | h3 <;> rw [h3] <;>
    rcases hn with h4 | h4 <;> rw [h4] <;>
    rcases hl with h5 | h5 <;> rw [h5] <;>
    rcases hh with h6 | h6 <;> rw [h6] <;> norm_num
  exact ⟨hchain, by rw [previewManualProcessing, hchain]; rfl⟩

/-- Witness for C4: all-zero manual parameters on a concrete buffer. -/
theorem c4_identity_chain_witness :
    manualChain ⟨some 0, some 0, some 0, some 0, some 0, some 0⟩ = [] ∧
    previewManualProcessing (fun _ bb => bb) ⟨[[1/4]], 44100, 1⟩
      ⟨some 0, some 0, some 0, some 0, some 0, some 0⟩ = ⟨[[1/4]], 44100, 1⟩ :=
  c4_identity_chain (fun _ bb => bb) ⟨[[1/4]], 44100, 1⟩
    ⟨some 0, some 0, some 0, some 0, some 0, some 0⟩
    (Or.inr rfl) (Or.inr rfl) (Or.inr rfl) (Or.inr rfl) (Or.inr rfl)
    (Or.inr rfl)

/-- The dispatch condition of `processAudio`'s first branch:
`preset && preset in presets`. -/
def validPresetArg (preset : Option String) : Prop :=
  match preset with
  | some s => s ≠ "" ∧ s ∈ presetNames
  | none => False

/-- Counterexample to Claim C5 as stated: supplying BOTH a valid preset name
and a manual parameter set is not rejected — `processAudio` applies the
preset and returns a buffer. -/
theorem c5_both_inputs_counterexample :
    processAudio (fun _ bb => bb) (fun _ bb => bb) ⟨[[1/4]], 44100, 1⟩
      (some ("normalize")) (some ⟨some 1, none, none, none, none, none⟩) =
      Except.ok ⟨[[1/4]], 44100, 1⟩ := by
  simp only [processAudio]
  rw [if_pos ⟨by decide, by decide⟩]

/-- Claim C5 (amended): `processAudio` fails exactly when no truthy, known
preset name is supplied AND no manual parameter set is supplied. When both a
valid preset and manual parameters are supplied, the preset branch wins and
the call succeeds with the preset's result (manual parameters are ignored),
rather than being rejected. -/
theorem c5_dispatch_amended (presetApp : String → AudioBuffer → AudioBuffer)
    (applyStage : StageSpec → AudioBuffer → AudioBuffer) (b : AudioBuffer)
    (preset : Option String) (manual : Option ManualParams) :
    ((∃ e, processAudio presetApp applyStage b preset manual =
        Except.error e) ↔ (¬ validPresetArg preset ∧ manual = none)) ∧
    (∀ s m, preset = some s → s ≠ "" → s ∈ presetNames → manual = some m →
      processAudio presetApp applyStage b preset manual =
        Except.ok (presetApp s b)) := by
  constructor
  · cases preset with
    | some s =>
      by_cases hv : s ≠ "" ∧ s ∈ presetNames
      · simp only [processAudio, validPresetArg, if_pos hv]
        simp [hv]
      · simp only [processAudio, validPresetArg, if_neg hv]
        cases manual with
        | some m => simp [hv]
        | none => simp [hv]
    | none =>
      cases manual with
      | some m => simp [processAudio, validPresetArg]
      | none => simp [processAudio, validPresetArg]
  · intro s m hp hs hmem hm
    subst hp
    subst hm
    simp only [processAudio]
    rw [if_pos ⟨hs, hmem⟩]

/-- Witness for the amended C5: with neither input supplied the call fails. -/
theorem c5_dispatch_amended_witness :
    ((∃ e, processAudio (fun _ bb => bb) (fun _ bb => bb) ⟨[[1/4]], 44100, 1⟩
        none none = Except.error e) ↔
      (¬ validPresetArg none ∧ (none : Option ManualParams) = none)) ∧
    (∀ s m, (none : Option String) = some s → s ≠ "" → s ∈ presetNames →
      (none : Option ManualParams) = some m →
      processAudio (fun _ bb => bb) (fun _ bb => bb) ⟨[[1/4]], 44100, 1⟩
        none none = Except.ok ⟨[[1/4]], 44100, 1⟩) :=
  c5_dispatch_amended (fun _ bb => bb) (fun _ bb => bb) ⟨[[1/4]], 44100, 1⟩
    none none

/-- Counterexample to Claim C6 as stated: a manual parameter set with an
out-of-range numeric field (negative highpass cutoff −100) does NOT fail
with a validation error — the render succeeds, and the offending stage is
silently dropped (the chain is empty). -/
theorem c6_no_validation_counterexample :
    processAudio (fun _ bb => bb) (fun _ bb => bb) ⟨[[1/4]], 44100, 1⟩ none
      (some ⟨none, none, none, none, none, some (-100)⟩) =
      Except.ok ⟨[[1/4]], 44100, 1⟩ ∧
    manualChain ⟨none, none, none, none, none, some (-100)⟩ = [] := by
  constructor
  · simp only [processAudio]
    rw [previewManualProcessing, show manualChain
      ⟨none, none, none, none, none, some (-100)⟩ = [] by norm_num [manualChain]]
    rfl
  · norm_num [manualChain]

/-- Claim C6 (amended): constructing a chain from manual parameters never
fails — there is no validation step. An out-of-range cutoff (highpass or
lowpass ≤ 0) is silently ignored: the chain is the same as if the field had
been omitted, and the render succeeds. -/
theorem c6_no_validation_amended
    (presetApp : String → AudioBuffer → AudioBuffer)
    (applyStage : StageSpec → AudioBuffer → AudioBuffer)
    (b : AudioBuffer) (m : ManualParams) :
    (∃ r, processAudio presetApp applyStage b none (some m) = Except.ok r) ∧
    (∀ f, m.highpass = some f → f ≤ 0 →
      manualChain m = manualChain
        ⟨m.bass, m.treble, m.compression, m.normalize, m.lowpass, none⟩) ∧
    (∀ f, m.lowpass = some f → f ≤ 0 →
      manualChain m = manualChain
        ⟨m.bass, m.treble, m.compression, m.normalize, none, m.highpass⟩) := by
  refine ⟨⟨_, rfl⟩, ?_, ?_⟩
  · intro f hf hf0
    simp only [manualChain, hf]
    rw [if_neg (not_lt.mpr hf0)]
  · intro f hf hf0
    simp only [manualChain, hf]
    rw [if_neg (not_lt.mpr hf0)]

/-- Witness for the amended C6 at a concrete parameter set with a negative
lowpass cutoff. -/
theorem c6_no_validation_amended_witness :
    (∃ r, processAudio (fun _ bb => bb) (fun _ bb => bb) ⟨[[1/4]], 44100, 1⟩
      none (some ⟨none, none, none, none, some (-5), none⟩) = Except.ok r) ∧
    (∀ f, (⟨none, none, none, none, some (-5), none⟩ : ManualParams).highpass
        = some f → f ≤ 0 →
      manualChain ⟨none, none, none, none, some (-5), none⟩ = manualChain
        ⟨none, none, none, none, some (-5), none⟩) ∧
    (∀ f, (⟨none, none, none, none, some (-5), none⟩ : ManualParams).lowpass
        = some f → f ≤ 0 →
      manualChain ⟨none, none, none, none, some (-5), none⟩ = manualChain
        ⟨none, none, none, none, none, none⟩) :=
  c6_no_validation_amended (fun _ bb => bb) (fun _ bb => bb)
    ⟨[[1/4]], 44100, 1⟩ ⟨none, none, none, none, some (-5), none⟩

/-- The playback session state kept by `SimpleAudioPlayer`:
`isPlaying`, `currentTime` and the buffer `duration` (seconds as exact
rationals). The component has no separate Stopped/Paused flag; "Stopped"
is `isPlaying = false` at `currentTime = 0`. -/
structure PlayerState where
  isPlaying : Bool
  currentTime : ℚ
  duration : ℚ
deriving DecidableEq, Repr

/-- Transport events handled by `SimpleAudioPlayer`: the media element's
`ended` event, the play/pause button (`togglePlayPause`), the restart
button (`handleRestart`), a slider seek (`handleSeek`), and a media
`timeupdate`. -/
inductive PlayerEvent where
  | ended
  | togglePlayPause
  | restart
  | seek (t : ℚ)
  | timeupdate (t : ℚ)
deriving DecidableEq, Repr

/-- One transition of the transport state machine, translated handler by
handler: `handleEnded` sets `isPlaying` false and `currentTime` 0;
`togglePlayPause` flips `isPlaying`; `handleRestart` sets `currentTime` 0
(and touches nothing else); `handleSeek` and `timeupdate` set
`currentTime`. -/
def playerStep (s : PlayerState) : PlayerEvent → PlayerState
  | .ended => { s with isPlaying := false, currentTime := 0 }
  | .togglePlayPause => { s with isPlaying := !s.isPlaying }
  | .restart => { s with currentTime := 0 }
  | .seek t => { s with currentTime := t }
  | .timeupdate t => { s with currentTime := t }

/-- The media element fires `ended` exactly when playback is active and the
position has reached the buffer duration. -/
def endedFires (s : PlayerState) : Prop :=
  s.isPlaying = true ∧ s.duration ≤ s.currentTime

/-- Claim C7: from any state that is Playing with position at or past the
buffer duration, the `ended` transition yields the stopped state with the
position reset to 0 (duration unchanged). -/
theorem c7_auto_stop (s : PlayerState) (_h : endedFires s) :
    playerStep s PlayerEvent.ended =
      { isPlaying := false, currentTime := 0, duration := s.duration } := rfl

/-- Witness for C7: a playing session at the end of a 10-second buffer. -/
theorem c7_auto_stop_witness :
    playerStep ⟨true, 10, 10⟩ PlayerEvent.ended =
      { isPlaying := false, currentTime := 0,
        duration := PlayerState.duration ⟨true, 10, 10⟩ } :=
  c7_auto_stop ⟨true, 10, 10⟩ ⟨rfl, le_refl 10⟩

/-- Counterexample to Claim C8 as stated: issuing Restart from a paused
state does NOT transition to Playing at position 0 — `handleRestart` only
resets the position and leaves the play state untouched. -/
theorem c8_restart_counterexample :
    ¬ ((playerStep ⟨false, 5, 10⟩ PlayerEvent.restart).isPlaying = true ∧
       (playerStep ⟨false, 5, 10⟩ PlayerEvent.restart).currentTime = 0) := by
  intro h
  exact absurd h.1 (by decide)

/-- Claim C8 (amended): for every transport state, Restart resets the
position to 0 and PRESERVES the play/pause state (it does not force
Playing). -/
theorem c8_restart_amended (s : PlayerState) :
    (playerStep s PlayerEvent.restart).isPlaying = s.isPlaying ∧
    (playerStep s PlayerEvent.restart).currentTime = 0 ∧
    (playerStep s PlayerEvent.restart).duration = s.duration :=
  ⟨rfl, rfl, rfl⟩

/-- The exact rational value of the IEEE-754 double `Math.PI`. -/
def mathPI : ℚ := 884279719003555 / 281474976710656

/-- `const deg = Math.PI / 180` from `makeDistortionCurve`. -/
def deg : ℚ := mathPI / 180

/-- `makeDistortionCurve(amount)` from the source: a 44100-entry table with
`curve[i] = (3 + k) * x * 20 * deg / (Math.PI + k * Math.abs(x))` at
`x = (i * 2) / n_samples - 1`. -/
def makeDistortionCurve (amount : ℚ) : List ℚ :=
  (List.range 44100).map (fun (i : ℕ) =>
    (3 + amount) * ((i : ℚ) * 2 / 44100 - 1) * 20 * deg /
      (mathPI + amount * |(i : ℚ) * 2 / 44100 - 1|))

/-- Claim C9: the waveshaper transfer curve is tabulated at 44100 ≥ 2048
points, and entry `i` equals `(3+k)·x·20·(π/180) / (π + k·|x|)` at
`x = 2i/N − 1` (N the table size, k the drive amount, π the double
`Math.PI`). -/
theorem c9_distortion_curve (k : ℚ) :
    (makeDistortionCurve k).length = 44100 ∧
    2048 ≤ (makeDistortionCurve k).length ∧
    ∀ i : ℕ, i < 44100 → (makeDistortionCurve k)[i]? =
      some ((3 + k) * ((i : ℚ) * 2 / 44100 - 1) * 20 * (mathPI / 180) /
        (mathPI + k * |(i : ℚ) * 2 / 44100 - 1|)) := by
  refine ⟨?_, ?_, ?_⟩
  · rw [makeDistortionCurve, List.length_map, List.length_range]
  · rw [makeDistortionCurve, List.length_map, List.length_range]
    norm_num
  · intro i hi
    rw [makeDistortionCurve, List.getElem?_map, List.getElem?_range hi,
      Option.map_some', deg]

/-- Witness for C9 at drive 20 (the radio-voice preset's curve), index 0. -/
theorem c9_distortion_curve_witness :
    (makeDistortionCurve 20)[0]? =
      some ((3 + 20) * (((0 : ℕ) : ℚ) * 2 / 44100 - 1) * 20 * (mathPI / 180) /
        (mathPI + 20 * |((0 : ℕ) : ℚ) * 2 / 44100 - 1|)) :=
  (c9_distortion_curve 20).2.2 0 (by norm_num)

/-- Claim C10: the encoder writes the byte-rate header field (offset 28) as
`sampleRate * 4` regardless of the channel count, while block align
(offset 32) is `channels * 2`; so whenever the channel count is not 2 (and
the fields do not overflow their 32/16-bit stores), the byte-rate field
differs from `sampleRate * blockAlign`. -/
theorem c10_byte_rate (b : AudioBuffer)
    (hsr4 : b.sampleRate * 4 < 4294967296) (hba : numCh b * 2 < 65536) :
    readU32le (wavBytes b) 28 = b.sampleRate * 4 ∧
    readU16le (wavBytes b) 32 = numCh b * 2 ∧
    (0 < b.sampleRate → numCh b ≠ 2 →
      readU32le (wavBytes b) 28 ≠ b.sampleRate * readU16le (wavBytes b) 32) := by
  refine ⟨wav_byterate b hsr4, wav_blockalign b hba, ?_⟩
  intro hsr hch
  rw [wav_byterate b hsr4, wav_blockalign b hba]
  intro heq
  have h4 : 4 = numCh b * 2 := Nat.eq_of_mul_eq_mul_left hsr heq
  exact hch (by omega)

/-- Witness for C10 at a mono buffer. -/
theorem c10_byte_rate_witness :
    readU32le (wavBytes ⟨[[1/4]], 44100, 1⟩) 28 = 44100 * 4 ∧
    readU16le (wavBytes ⟨[[1/4]], 44100, 1⟩) 32 = numCh ⟨[[1/4]], 44100, 1⟩ * 2 ∧
    (0 < (44100 : ℕ) → numCh ⟨[[1/4]], 44100, 1⟩ ≠ 2 →
      readU32le (wavBytes ⟨[[1/4]], 44100, 1⟩) 28 ≠
        44100 * readU16le (wavBytes ⟨[[1/4]], 44100, 1⟩) 32) :=
  c10_byte_rate ⟨[[1/4]], 44100, 1⟩ (by norm_num) (by norm_num [numCh])
